import Mathlib

/-!
# cuda-qt-starter: the painter contract and the CPU/GPU equivalence harness

A shallow embedding of `src/tests.cpp` (`compareBuffers`, `brushTest`, `runTests`),
`src/cuda/painter.h` (`Painter`) and `src/cuda/gpu_painter.h` (`GPUPainter`).

Conventions of the embedding.

* `int` values are mathematical integers; the one accumulator that can leave the
  32-bit range (`sum` in `compareBuffers`) is reduced with `wrap32` after every `+=`.
* A pixel buffer is a map from index to pixel; `compareBuffers` only reads the
  indices `0 .. buf_size - 1`, the ones it copies to the host.
* The generator of the C library is explicit: `gen seed k` is the `k`-th number that
  `rand()` yields after `srand(seed)`, and the state of the generator is the seed
  together with the number of draws made since it was seeded.
* The stamping code of the two painters is not part of the sources at hand. The
  harness is therefore embedded as the sequence of calls it issues on the painters,
  and the contents of the two device buffers after those calls are a parameter.
* Wall-clock timings are not modelled; the lines that print them are kept in the
  output without their value.
* A `float` is an IEEE binary32 value, given by the exact rational it holds;
  conversions and the division round to nearest, ties to even. A value streamed to
  `cout` is recorded as that value: the decimal digits the stream renders from it
  depend on the precision the stream is in and are not modelled.
-/

namespace CudaQtStarter

/-! ## Machine arithmetic and loops -/

/-- Two's-complement reduction of an integer to the range of a 32-bit `int`. -/
def wrap32 (v : Int) : Int := (v + 2147483648) % 4294967296 - 2147483648

/-- The loop `for (int i = 0; i < n; ++i) body` as a state transformer:
`forLoop body n s` is the state after the iterations `0, 1, ..., n - 1`. -/
def forLoop {σ : Type} (body : Nat → σ → σ) : Nat → σ → σ
  | 0, s => s
  | n + 1, s => body n (forLoop body n s)

/-- The operator `%` of C++ on `int`: the remainder of the division that truncates
towards zero. -/
def cMod (a b : Int) : Int := Int.tmod a b

/-! ## Single-precision values -/

/-- A value of the type `float` (IEEE binary32): not-a-number, an infinity with its
sign, or a finite value given by the rational number it holds. The two zeros are
not told apart. -/
inductive F32
  | nan
  | inf (negative : Bool)
  | finite (v : ℚ)
deriving DecidableEq

/-- The integer nearest to `m`, the even one of the two when `m` lies half way. -/
def roundHalfEven (m : ℚ) : Int :=
  let f := ⌊m⌋
  if m - f < 1 / 2 then f
  else if 1 / 2 < m - f then f + 1
  else if f % 2 = 0 then f else f + 1

/-- The binary32 value that an exact value `q` rounds to in the default rounding
mode: with `2^e <= |q| < 2^(e+1)` and `e` not below the least exponent -126, `q` is
rounded to the nearest multiple of `2^(e-23)` (24 significant bits), ties to even; a
result of magnitude `2^128` or more is an infinity. -/
def roundF32 (q : ℚ) : F32 :=
  if q = 0 then F32.finite 0
  else
    let e := max (Int.log 2 |q|) (-126)
    let ulp : ℚ := (2 : ℚ) ^ (e - 23)
    let r : ℚ := (roundHalfEven (q / ulp) : ℚ) * ulp
    if (2 : ℚ) ^ (128 : Int) ≤ |r| then F32.inf (decide (q < 0)) else F32.finite r

/-- The operator `/` on two `float` values: the exact quotient rounded to binary32,
with the special cases of IEEE 754. A zero divisor is taken to be `+0`, which is what
an `int` zero converts to. -/
def F32.div : F32 → F32 → F32
  | F32.nan, _ => F32.nan
  | _, F32.nan => F32.nan
  | F32.inf _, F32.inf _ => F32.nan
  | F32.inf s, F32.finite b => F32.inf (s != decide (b < 0))
  | F32.finite _, F32.inf _ => F32.finite 0
  | F32.finite a, F32.finite b =>
    if b = 0 then (if a = 0 then F32.nan else F32.inf (decide (a < 0)))
    else roundF32 (a / b)

/-! ## Pixels and buffers -/

/-- CUDA's `uchar4`: four 8-bit channels. -/
structure uchar4 where
  x : Fin 256
  y : Fin 256
  z : Fin 256
  w : Fin 256
deriving DecidableEq

/-- Memory holding pixels, addressed by pixel index. -/
abbrev Buffer := Nat → uchar4

/-- The four channels of a pixel, used to state properties over all channels. -/
inductive Channel
  | x | y | z | w
deriving DecidableEq, Fintype

/-- The value of one channel, promoted to `int` as C++ does before subtracting. -/
def uchar4.chan (p : uchar4) : Channel → Int
  | Channel.x => (p.x.val : Int)
  | Channel.y => (p.y.val : Int)
  | Channel.z => (p.z.val : Int)
  | Channel.w => (p.w.val : Int)

/-- The expression `abs(a - b)` on two `unsigned char` channels (promoted to `int`). -/
def absDiff (a b : Fin 256) : Int := (((a.val : Int) - (b.val : Int)).natAbs : Int)

/-! ## `compareBuffers` (tests.cpp, lines 14-36) -/

/-- The two locals `sum` and `maxError` of `compareBuffers`. -/
structure CompareState where
  sum : Int
  maxError : Int
deriving DecidableEq

/-- One iteration of the loop of `compareBuffers` (lines 23-30), at index `i`. -/
def compareBody (b1 b2 : Buffer) (i : Nat) (s : CompareState) : CompareState :=
  let sum := wrap32 (s.sum + absDiff (b1 i).x (b2 i).x)
  let sum := wrap32 (sum + absDiff (b1 i).y (b2 i).y)
  let sum := wrap32 (sum + absDiff (b1 i).z (b2 i).z)
  let sum := wrap32 (sum + absDiff (b1 i).w (b2 i).w)
  let maxError := max s.maxError (absDiff (b1 i).x (b2 i).x)
  let maxError := max maxError (absDiff (b1 i).y (b2 i).y)
  let maxError := max maxError (absDiff (b1 i).z (b2 i).z)
  let maxError := max maxError (absDiff (b1 i).w (b2 i).w)
  { sum := sum, maxError := maxError }

/-- The locals after `n` iterations of the loop, from `sum = 0`, `maxError = -1`. -/
def compareLoop (b1 b2 : Buffer) (n : Nat) : CompareState :=
  forLoop (compareBody b1 b2) n { sum := 0, maxError := -1 }

/-- What a call of `compareBuffers` produces: the `float` value of the expression
`(float)sum / buf_size` that line 32 streams after `"Average error: "`, and
`maxError`, which is both streamed and returned (its conversion to `float` is exact,
the value lying between -1 and 255). -/
structure CompareResult where
  averageError : F32
  maxError : Int
deriving DecidableEq

/-- The function `compareBuffers`. A negative `buf_size` makes `new uchar4[buf_size]`
throw, so that no value is returned: `none`. -/
def compareBuffers (buf_size : Int) (buf1 buf2 : Buffer) : Option CompareResult :=
  if buf_size < 0 then none
  else
    let s := compareLoop buf1 buf2 buf_size.toNat
    some { averageError := F32.div (roundF32 (s.sum : ℚ)) (roundF32 (buf_size : ℚ)),
           maxError := s.maxError }

/-! ## Brush configuration and the painter classes -/

/-- Modelled from the spec: the enumeration `BrushType` of `brush_type.h`, which is
not among the sources; these are the three variants `runTests` names. -/
inductive BrushType
  | Default | Textured | Smooth
deriving DecidableEq

/-- Modelled from the spec: the value type `BrushSettings` of `brush_settings.h`,
which is not among the sources; the fields are the ones `brushTest` assigns. The
floating-point scalar type is the parameter `F`. -/
structure BrushSettings (F : Type) where
  color : F × F × F
  falloff : F
  heightPressure : F
  pressure : F
  size : Int
  normalBending : F
deriving DecidableEq

/-- The data members of class `Painter` (painter.h, lines 26-28). -/
structure Painter (F : Type) where
  brushSettings : BrushSettings F
  w : Int
  h : Int

/-- The member `Painter::setBrush` (painter.h, line 12). -/
def Painter.setBrush {F : Type} (p : Painter F) (settings : BrushSettings F) : Painter F :=
  { p with brushSettings := settings }

/-- The member `Painter::getWidth` (painter.h, line 13). -/
def Painter.getWidth {F : Type} (p : Painter F) : Int := p.w

/-- The member `Painter::getHeight` (painter.h, line 14). -/
def Painter.getHeight {F : Type} (p : Painter F) : Int := p.h

/-- Class `GPUPainter` (gpu_painter.h): the `Painter` base subobject together with
the members `int w, h;` that the derived class declares itself (line 23). Inside
`GPUPainter` the names `w` and `h` denote these, not the members of the base. -/
structure GPUPainter (F : Type) where
  base : Painter F
  w : Int
  h : Int

/-- The inherited `setBrush`, acting on the base subobject. -/
def GPUPainter.setBrush {F : Type} (g : GPUPainter F) (settings : BrushSettings F) :
    GPUPainter F :=
  { g with base := g.base.setBrush settings }

/-- The inherited `getWidth`: it is `Painter::getWidth` and reads `Painter::w`. -/
def GPUPainter.getWidth {F : Type} (g : GPUPainter F) : Int := g.base.getWidth

/-- The inherited `getHeight`: it is `Painter::getHeight` and reads `Painter::h`. -/
def GPUPainter.getHeight {F : Type} (g : GPUPainter F) : Int := g.base.getHeight

/-- Modelled from the spec: `setDimensions(w, h, buffer)` of the painter contract,
which painter.h declares pure virtual (line 18) and of which no implementation is
among the sources. By section 4.1 of the spec it requires `w > 0`, `h > 0` and a
buffer that holds at least `w * h` pixels, fails when that is violated, and
otherwise reconfigures the width and height of the painter. `capacity` is the
number of pixels the buffer passed can hold; the buffer reference has no member in
the two headers and is left out. -/
def Painter.setDimensions {F : Type} (p : Painter F) (w h capacity : Int) :
    Option (Painter F) :=
  if 0 < w ∧ 0 < h ∧ w * h ≤ capacity then some { p with w := w, h := h } else none

/-- Modelled from the spec: `GPUPainter::setDimensions`, declared at gpu_painter.h
line 15 and defined in a file that is not among the sources. It carries out the
contract above on the width and height of the painter, the ones the accessors
read, and gives the members `w` and `h` that `GPUPainter` declares itself the same
values. -/
def GPUPainter.setDimensions {F : Type} (g : GPUPainter F) (w h capacity : Int) :
    Option (GPUPainter F) :=
  match g.base.setDimensions w h capacity with
  | none => none
  | some b => some { base := b, w := w, h := h }

/-! ## The harness: `brushTest` and `runTests` (tests.cpp, lines 38-146) -/

/-- The two painter objects of `brushTest`: `cpu` paints into `pbo1`, `gpu` into
`pbo2`. -/
inductive Backend
  | cpu | gpu
deriving DecidableEq

/-- A call that `brushTest` issues on one of its painters. Of the arguments only
those that the harness computes are kept (the buffer passed is always the buffer
of that painter). -/
inductive Call
  | setDimensions (t : Backend) (w h : Int)
  | clear (t : Backend)
  | updateWholeDisplay (t : Backend)
  | sendBufferToDevice (t : Backend)
  | setBrushType (t : Backend) (type : BrushType)
  | setBrush (t : Backend) (settings : BrushSettings ℚ)
  | setTexture (t : Backend) (type : String)
  | getTexture (t : Backend) (type : String)
  | paint (t : Backend) (x y : Int)
deriving DecidableEq

/-- The state of the C library generator: the seed last given to `srand` and the
number of `rand()` calls made since. -/
structure RandState where
  seed : Int
  draws : Nat
deriving DecidableEq

/-- The call `srand(seed)`. -/
def srand (seed : Int) (_g : RandState) : RandState := { seed := seed, draws := 0 }

/-- The call `rand()`: with `gen seed k` the `k`-th number the generator yields
after `srand(seed)`, it returns the next number and advances the state. -/
def rand (gen : Int → Nat → Int) (g : RandState) : Int × RandState :=
  (gen g.seed g.draws, { g with draws := g.draws + 1 })

/-- The part of the state of `brushTest` that its two loops change: the calls
issued on the painters so far, oldest first, and the generator. -/
structure HarnessState where
  calls : List Call
  rng : RandState
deriving DecidableEq

/-- The body of the loop "straight line" (lines 88-91); the two `push_back` of
timings are not modelled. -/
def lineBody (i : Nat) (s : HarnessState) : HarnessState :=
  let x : Int := (i : Int) * 3
  let y : Int := (i : Int) * 5
  { s with calls := s.calls ++ [Call.paint Backend.cpu x y, Call.paint Backend.gpu x y] }

/-- The body of the loop "random dots" (lines 99-102). -/
def dotsBody (gen : Int → Nat → Int) (dim1 dim2 : Int) (_i : Nat) (s : HarnessState) :
    HarnessState :=
  let d1 := rand gen s.rng
  let x : Int := cMod d1.1 dim1
  let d2 := rand gen d1.2
  let y : Int := cMod d2.1 dim2
  { calls := s.calls ++ [Call.paint Backend.cpu x y, Call.paint Backend.gpu x y], rng := d2.2 }

/-- The calls by which `brushTest` configures the two painters (lines 48-80). -/
def setupCalls (brushType : BrushType) (brush_size : Int) (dim1 dim2 : Int) : List Call :=
  let bs : BrushSettings ℚ :=
    { color := (123, 20, 220), falloff := 0.5, heightPressure := 1.00, pressure := 0.5,
      size := brush_size, normalBending := 1 }
  [Call.setDimensions Backend.cpu dim1 dim2, Call.clear Backend.cpu,
   Call.updateWholeDisplay Backend.cpu, Call.sendBufferToDevice Backend.cpu,
   Call.setBrushType Backend.cpu brushType, Call.setBrush Backend.cpu bs,
   Call.setDimensions Backend.gpu dim1 dim2, Call.clear Backend.gpu,
   Call.updateWholeDisplay Backend.gpu,
   Call.setBrushType Backend.gpu brushType, Call.setBrush Backend.gpu bs]
  ++ (if brushType = BrushType.Textured then
        [Call.setTexture Backend.cpu "colorFilename", Call.setTexture Backend.cpu "heightFilename",
         Call.getTexture Backend.cpu "colorFilename", Call.setTexture Backend.gpu "colorFilename",
         Call.getTexture Backend.cpu "heightFilename", Call.setTexture Backend.gpu "heightFilename"]
      else [])

/-- Lines 48-105 of `brushTest`, for the locals `dim1` and `dim2`: the set-up, the
200 iterations of the first loop, `srand(123)` and the 300 iterations of the second
loop. -/
def brushTestDrive (gen : Int → Nat → Int) (rng0 : RandState) (brushType : BrushType)
    (brush_size : Int) (dim1 dim2 : Int) : HarnessState :=
  let s : HarnessState := { calls := setupCalls brushType brush_size dim1 dim2, rng := rng0 }
  let line_samples := 200
  let dots_samples := 300
  let s := forLoop lineBody line_samples s
  let s := { s with rng := srand 123 s.rng }
  forLoop (dotsBody gen dim1 dim2) dots_samples s

/-- The centres of the `paint` calls issued on painter `t`, in the order of the calls. -/
def paintCentres (t : Backend) (calls : List Call) : List (Int × Int) :=
  calls.filterMap fun c =>
    match c with
    | Call.paint u x y => if u = t then some (x, y) else none
    | _ => none

/-- A line that the harness writes to `cout`. -/
inductive Out
  | text (s : String)
  | brushSize (px : Int)
  | timing (label : String)
  | averageError (v : F32)
  | maxError (v : Int)
deriving DecidableEq

/-- What a call of `brushTest` leaves behind. -/
structure BrushTestResult where
  calls : List Call
  rng : RandState
  output : List Out
  returned : Int
deriving DecidableEq

/-- The function `brushTest`. The parameter `device` stands for the painters, whose
code is not among the sources: it gives the contents of `pbo1` and `pbo2` once the
given calls have been carried out. -/
def brushTest (gen : Int → Nat → Int) (device : List Call → Buffer × Buffer)
    (rng0 : RandState) (brushType : BrushType) (brush_size : Int) : Option BrushTestResult :=
  let dim1 : Int := 1234
  let dim2 : Int := 1234
  let buf_size : Int := dim1 * dim2
  let s := brushTestDrive gen rng0 brushType brush_size dim1 dim2
  let pbo := device s.calls
  match compareBuffers buf_size pbo.1 pbo.2 with
  | none => none
  | some c =>
    some
      { calls := s.calls
        rng := s.rng
        output :=
          [Out.brushSize brush_size, Out.timing "Average time for CPU: ",
           Out.timing "Min time for CPU: ", Out.timing "Average time for GPU: ",
           Out.timing "Min time for GPU: ", Out.timing "Average acceleration: ",
           Out.averageError c.averageError, Out.maxError c.maxError]
        returned := c.maxError }

/-- What a call of `runTests` leaves behind. -/
structure RunTestsResult where
  rng : RandState
  output : List Out
  returned : Int
deriving DecidableEq

/-- The function `runTests`. `argv2` is the value of `atoi(argv[2])`, read only when
`argc > 2`. The values that the three calls of `brushTest` return are dropped. -/
def runTests (gen : Int → Nat → Int) (device : List Call → Buffer × Buffer)
    (rng0 : RandState) (argc : Int) (argv2 : Int) : Option RunTestsResult :=
  let brush_size : Int := if argc > 2 then argv2 else 200
  let rule := Out.text "----------------------------------------------------"
  match brushTest gen device rng0 BrushType.Default brush_size with
  | none => none
  | some t1 =>
    match brushTest gen device t1.rng BrushType.Textured brush_size with
    | none => none
    | some t2 =>
      match brushTest gen device t2.rng BrushType.Smooth brush_size with
      | none => none
      | some t3 =>
        some
          { rng := t3.rng
            output :=
              [rule, Out.text "Default brush tests:"] ++ t1.output
              ++ [rule, Out.text "Textured brush tests:"] ++ t2.output
              ++ [rule, Out.text "Smooth brush tests:"] ++ t3.output
            returned := 0 }

/-! ## Concrete inputs used to exercise the definitions -/

/-- The buffer whose pixels are all `(0, 0, 0, 0)`. -/
def bufLow : Buffer := fun _ => { x := 0, y := 0, z := 0, w := 0 }

/-- The buffer whose pixels are all `(255, 255, 255, 255)`. -/
def bufHigh : Buffer := fun _ => { x := 255, y := 255, z := 255, w := 255 }

/-- The buffer whose pixels are all `(1, 1, 1, 1)`. -/
def bufOnes : Buffer := fun _ => { x := 1, y := 1, z := 1, w := 1 }

/-- A buffer whose pixels differ: pixel `i` is `(i, 2i, 3i, 255 - i)`, each modulo 256. -/
def bufRamp : Buffer := fun i =>
  { x := Fin.ofNat i, y := Fin.ofNat (2 * i), z := Fin.ofNat (3 * i), w := Fin.ofNat (255 - i % 256) }

/-- A generator with non-negative outputs: the `k`-th number after `srand(seed)` is
`|seed| + 7919 * k`. -/
def genStep : Int → Nat → Int := fun seed k => ((seed.natAbs + 7919 * k : Nat) : Int)

/-- The generator state of a process that has not called `srand`: the C library
then behaves as after `srand(1)`. -/
def rngFresh : RandState := { seed := 1, draws := 0 }

/-- Painters that leave both buffers all zero, whatever the calls. -/
def deviceSame : List Call → Buffer × Buffer := fun _ => (bufLow, bufLow)

/-- Painters after which `pbo1` is all 255 and `pbo2` all zero, whatever the calls. -/
def deviceApart : List Call → Buffer × Buffer := fun _ => (bufHigh, bufLow)

/-- The scripted centres of the first loop of `brushTest`: `(3i, 5i)` for
`i = 0, ..., 199`. -/
def sweepCentres : List (Int × Int) :=
  (List.range 200).map fun (i : Nat) => ((i : Int) * 3, (i : Int) * 5)

/-- The scripted centres of the second loop of `brushTest` for the stream `r` of
generator outputs: `(r (2k) % 1234, r (2k + 1) % 1234)` for `k = 0, ..., 299`, with
the operator `%` of C++. -/
def dotCentres (r : Nat → Int) : List (Int × Int) :=
  (List.range 300).map fun (k : Nat) => (cMod (r (2 * k)) 1234, cMod (r (2 * k + 1)) 1234)

/-- A `GPUPainter` on which `setDimensions` has not been called yet, with the
brush of `brushTest`; the members without initialiser are taken to be 0. -/
def gpuFresh : GPUPainter ℚ :=
  { base :=
      { brushSettings :=
          { color := (123, 20, 220), falloff := 0.5, heightPressure := 1.00, pressure := 0.5,
            size := 200, normalBending := 1 }
        w := 0
        h := 0 }
    w := 0
    h := 0 }

/-! ## Lemmas on the machine arithmetic -/

theorem wrap32_of_range (v : Int) (h0 : -2147483648 ≤ v) (h1 : v < 2147483648) :
    wrap32 v = v := by
  unfold wrap32
  rw [Int.emod_eq_of_lt (by omega) (by omega)]
  omega

theorem wrap32_add_wrap32 (a b : Int) : wrap32 (wrap32 a + b) = wrap32 (a + b) := by
  unfold wrap32
  omega

theorem absDiff_eq_abs (a b : Fin 256) : absDiff a b = |(a.val : Int) - (b.val : Int)| := by
  unfold absDiff
  exact Int.natCast_natAbs _

theorem absDiff_nonneg (a b : Fin 256) : 0 ≤ absDiff a b := by
  unfold absDiff
  omega

theorem absDiff_le (a b : Fin 256) : absDiff a b ≤ 255 := by
  unfold absDiff
  have ha := a.isLt
  have hb := b.isLt
  omega

theorem sum_channels (f : Channel → Int) :
    (∑ c : Channel, f c) = f Channel.x + f Channel.y + f Channel.z + f Channel.w := by
  have hu : (Finset.univ : Finset Channel)
      = {Channel.x, Channel.y, Channel.z, Channel.w} := by decide
  rw [hu]
  simp [Finset.sum_insert]
  ring

/-! ## Lemmas on rounding to binary32 -/

theorem roundHalfEven_of_close (m : ℚ) (k : Int) (h : |m - k| < 1 / 2) :
    roundHalfEven m = k := by
  obtain ⟨h1, h2⟩ := abs_lt.mp h
  unfold roundHalfEven
  by_cases hk : (k : ℚ) ≤ m
  · have hf : ⌊m⌋ = k := Int.floor_eq_iff.mpr ⟨hk, by linarith⟩
    simp only [hf]
    rw [if_pos h2]
  · have hf : ⌊m⌋ = k - 1 := Int.floor_eq_iff.mpr ⟨by push_cast; linarith, by push_cast; linarith⟩
    simp only [hf]
    have hn : ¬ (m - ((k - 1 : Int) : ℚ) < 1 / 2) := by push_cast; linarith
    have hp : 1 / 2 < m - ((k - 1 : Int) : ℚ) := by push_cast; linarith
    rw [if_neg hn, if_pos hp]
    omega

theorem roundHalfEven_error (m : ℚ) : |((roundHalfEven m : Int) : ℚ) - m| ≤ 1 / 2 := by
  have hl := Int.floor_le m
  have hu := Int.lt_floor_add_one m
  unfold roundHalfEven
  simp only
  rw [abs_le]
  split_ifs with h1 h2 h3
  · constructor <;> linarith
  · constructor <;> push_cast <;> linarith
  · constructor <;> linarith
  · have : m - ⌊m⌋ = 1 / 2 := le_antisymm (not_lt.mp h2) (not_lt.mp h1)
    constructor <;> push_cast <;> linarith

theorem log_two_eq (x : ℚ) (e : Int) (hx : 0 < x) (h1 : (2 : ℚ) ^ e ≤ x)
    (h2 : x < (2 : ℚ) ^ (e + 1)) : Int.log 2 x = e := by
  have a1 : e ≤ Int.log 2 x :=
    (Int.zpow_le_iff_le_log (by decide) hx).mp (by simpa using h1)
  have a2 : Int.log 2 x < e + 1 :=
    (Int.lt_zpow_iff_log_lt (by decide) hx).mp (by simpa using h2)
  omega

theorem log_two_bounds (x : ℚ) (hx : 0 < x) :
    (2 : ℚ) ^ (Int.log 2 x) ≤ x ∧ x < (2 : ℚ) ^ (Int.log 2 x + 1) := by
  have a1 := Int.zpow_log_le_self (b := 2) (r := x) (by decide) hx
  have a2 := Int.lt_zpow_succ_log_self (b := 2) (by decide) x
  exact ⟨by simpa using a1, by simpa using a2⟩

theorem roundF32_eval (q : ℚ) (e k : Int) (hq : q ≠ 0) (h1 : (2 : ℚ) ^ e ≤ |q|)
    (h2 : |q| < (2 : ℚ) ^ (e + 1)) (hmin : -126 ≤ e)
    (hk : |q / (2 : ℚ) ^ (e - 23) - k| < 1 / 2)
    (hov : |(k : ℚ) * (2 : ℚ) ^ (e - 23)| < (2 : ℚ) ^ (128 : Int)) :
    roundF32 q = F32.finite ((k : ℚ) * (2 : ℚ) ^ (e - 23)) := by
  have he : Int.log 2 |q| = e := log_two_eq |q| e (abs_pos.mpr hq) h1 h2
  unfold roundF32
  rw [if_neg hq]
  simp only [he, max_eq_left hmin]
  rw [roundHalfEven_of_close _ k hk, if_neg (not_le.mpr hov)]

theorem roundF32_near (q : ℚ) (hq : q ≠ 0) (hlo : (2 : ℚ) ^ (-126 : Int) ≤ |q|)
    (hhi : |q| ≤ (2 : ℚ) ^ (100 : Int)) :
    ∃ r, roundF32 q = F32.finite r ∧ |r - q| ≤ |q| / 2 ^ 24 := by
  have hpos : 0 < |q| := abs_pos.mpr hq
  obtain ⟨b1, b2⟩ := log_two_bounds |q| hpos
  have hmin : -126 ≤ Int.log 2 |q| :=
    (Int.zpow_le_iff_le_log (by decide) hpos).mp (by simpa using hlo)
  have hP : 0 < (2 : ℚ) ^ (Int.log 2 |q|) := zpow_pos (by norm_num) _
  have hulp : (2 : ℚ) ^ (Int.log 2 |q| - 23) = (2 : ℚ) ^ (Int.log 2 |q|) / 8388608 := by
    rw [zpow_sub₀ (by norm_num)]
    norm_num
  have herr := roundHalfEven_error (q / ((2 : ℚ) ^ (Int.log 2 |q|) / 8388608))
  have hdiff : |((roundHalfEven (q / ((2 : ℚ) ^ (Int.log 2 |q|) / 8388608)) : Int) : ℚ)
        * ((2 : ℚ) ^ (Int.log 2 |q|) / 8388608) - q| ≤ |q| / 2 ^ 24 := by
    have hu : (0 : ℚ) < (2 : ℚ) ^ (Int.log 2 |q|) / 8388608 := by positivity
    have hsplit : ((roundHalfEven (q / ((2 : ℚ) ^ (Int.log 2 |q|) / 8388608)) : Int) : ℚ)
        * ((2 : ℚ) ^ (Int.log 2 |q|) / 8388608) - q
        = (((roundHalfEven (q / ((2 : ℚ) ^ (Int.log 2 |q|) / 8388608)) : Int) : ℚ)
            - q / ((2 : ℚ) ^ (Int.log 2 |q|) / 8388608))
          * ((2 : ℚ) ^ (Int.log 2 |q|) / 8388608) := by
      field_simp
      ring
    rw [hsplit, abs_mul, abs_of_pos hu]
    calc _ ≤ 1 / 2 * ((2 : ℚ) ^ (Int.log 2 |q|) / 8388608) :=
            mul_le_mul_of_nonneg_right herr hu.le
      _ ≤ |q| / 2 ^ 24 := by
            norm_num
            linarith
  refine ⟨((roundHalfEven (q / ((2 : ℚ) ^ (Int.log 2 |q|) / 8388608)) : Int) : ℚ)
        * ((2 : ℚ) ^ (Int.log 2 |q|) / 8388608), ?_, hdiff⟩
  unfold roundF32
  rw [if_neg hq]
  simp only [max_eq_left hmin, hulp]
  rw [if_neg]
  rw [not_le]
  have h3 := abs_sub_abs_le_abs_sub
    (((roundHalfEven (q / ((2 : ℚ) ^ (Int.log 2 |q|) / 8388608)) : Int) : ℚ)
        * ((2 : ℚ) ^ (Int.log 2 |q|) / 8388608)) q
  have h4 : (2 : ℚ) ^ (100 : Int) * 2 < (2 : ℚ) ^ (128 : Int) := by norm_num
  have h5 : |q| / 2 ^ 24 ≤ |q| := by
    apply div_le_self hpos.le
    norm_num
  linarith

theorem roundF32_int (n : Int) (h1 : 1 ≤ n) (h2 : n < 16777216) :
    roundF32 (n : ℚ) = F32.finite (n : ℚ) := by
  have hn : (0 : ℚ) < (n : ℚ) := by exact_mod_cast (by omega : 0 < n)
  have habs : |(n : ℚ)| = n := abs_of_pos hn
  obtain ⟨b1, b2⟩ := log_two_bounds |(n : ℚ)| (by rw [habs]; exact hn)
  have e0 : 0 ≤ Int.log 2 |(n : ℚ)| :=
    (Int.zpow_le_iff_le_log (by decide) (by rw [habs]; exact hn)).mp
      (by rw [habs]; simpa using (by exact_mod_cast h1 : (1 : ℚ) ≤ n))
  have e1 : Int.log 2 |(n : ℚ)| < 24 :=
    (Int.lt_zpow_iff_log_lt (by decide) (by rw [habs]; exact hn)).mp
      (by rw [habs]; norm_num; exact_mod_cast h2)
  obtain ⟨d, hd⟩ : ∃ d : Nat, Int.log 2 |(n : ℚ)| - 23 = -(d : Int) :=
    ⟨(23 - Int.log 2 |(n : ℚ)|).toNat, by omega⟩
  have hulp : (2 : ℚ) ^ (Int.log 2 |(n : ℚ)| - 23) = ((2 : ℚ) ^ d)⁻¹ := by
    rw [hd, zpow_neg, zpow_natCast]
  have hd0 : (0 : ℚ) < (2 : ℚ) ^ d := by positivity
  have key := roundF32_eval (n : ℚ) (Int.log 2 |(n : ℚ)|) (n * 2 ^ d) hn.ne' b1 b2 (by omega)
    (by rw [hulp]; push_cast; rw [div_inv_eq_mul, sub_self, abs_zero]; norm_num)
    (by
      rw [hulp]; push_cast
      rw [mul_assoc, mul_inv_cancel₀ hd0.ne', mul_one, habs]
      have : (n : ℚ) < 16777216 := by exact_mod_cast h2
      have h4 : (16777216 : ℚ) < (2 : ℚ) ^ (128 : Int) := by norm_num
      linarith)
  rw [key, hulp]
  push_cast
  rw [mul_assoc, mul_inv_cancel₀ hd0.ne', mul_one]

theorem roundF32_zero : roundF32 0 = F32.finite 0 := by
  unfold roundF32
  rw [if_pos rfl]

theorem F32_div_finite (a b : ℚ) (hb : b ≠ 0) :
    F32.div (F32.finite a) (F32.finite b) = roundF32 (a / b) := by
  show (if b = 0 then (if a = 0 then F32.nan else F32.inf (decide (a < 0)))
    else roundF32 (a / b)) = _
  rw [if_neg hb]

/-! ## Lemmas on the loop of `compareBuffers` -/

theorem absDiff_chan (p q : uchar4) :
    absDiff p.x q.x = |p.chan Channel.x - q.chan Channel.x|
    ∧ absDiff p.y q.y = |p.chan Channel.y - q.chan Channel.y|
    ∧ absDiff p.z q.z = |p.chan Channel.z - q.chan Channel.z|
    ∧ absDiff p.w q.w = |p.chan Channel.w - q.chan Channel.w| :=
  ⟨absDiff_eq_abs _ _, absDiff_eq_abs _ _, absDiff_eq_abs _ _, absDiff_eq_abs _ _⟩

theorem chan_abs_nonneg (p q : uchar4) (c : Channel) : 0 ≤ |p.chan c - q.chan c| :=
  abs_nonneg _

theorem chan_abs_le (p q : uchar4) (c : Channel) : |p.chan c - q.chan c| ≤ 255 := by
  cases c
  · rw [← (absDiff_chan p q).1]; exact absDiff_le _ _
  · rw [← (absDiff_chan p q).2.1]; exact absDiff_le _ _
  · rw [← (absDiff_chan p q).2.2.1]; exact absDiff_le _ _
  · rw [← (absDiff_chan p q).2.2.2]; exact absDiff_le _ _

theorem compareLoop_succ (b1 b2 : Buffer) (n : Nat) :
    compareLoop b1 b2 (n + 1) = compareBody b1 b2 n (compareLoop b1 b2 n) := rfl

theorem total_nonneg (b1 b2 : Buffer) (n : Nat) :
    0 ≤ ∑ i in Finset.range n, ∑ c : Channel, |(b1 i).chan c - (b2 i).chan c| :=
  Finset.sum_nonneg fun _ _ => Finset.sum_nonneg fun _ _ => abs_nonneg _

theorem total_le (b1 b2 : Buffer) (n : Nat) :
    (∑ i in Finset.range n, ∑ c : Channel, |(b1 i).chan c - (b2 i).chan c|)
      ≤ 4 * 255 * (n : Int) := by
  induction n with
  | zero => simp
  | succ k ih =>
    rw [Finset.sum_range_succ, sum_channels]
    have hx := chan_abs_le (b1 k) (b2 k) Channel.x
    have hy := chan_abs_le (b1 k) (b2 k) Channel.y
    have hz := chan_abs_le (b1 k) (b2 k) Channel.z
    have hw := chan_abs_le (b1 k) (b2 k) Channel.w
    push_cast
    linarith

theorem compareLoop_sum (b1 b2 : Buffer) (n : Nat) :
    (compareLoop b1 b2 n).sum
      = wrap32 (∑ i in Finset.range n, ∑ c : Channel, |(b1 i).chan c - (b2 i).chan c|) := by
  induction n with
  | zero => rfl
  | succ k ih =>
    obtain ⟨hx, hy, hz, hw⟩ := absDiff_chan (b1 k) (b2 k)
    rw [compareLoop_succ, Finset.sum_range_succ, sum_channels]
    simp only [compareBody]
    rw [ih, hx, hy, hz, hw]
    simp only [wrap32_add_wrap32]
    congr 1
    ring

theorem compareLoop_maxError_ge (b1 b2 : Buffer) (n : Nat) :
    -1 ≤ (compareLoop b1 b2 n).maxError
    ∧ ∀ i, i < n → ∀ c : Channel,
        |(b1 i).chan c - (b2 i).chan c| ≤ (compareLoop b1 b2 n).maxError := by
  induction n with
  | zero => exact ⟨le_refl _, fun i hi => absurd hi (Nat.not_lt_zero i)⟩
  | succ k ih =>
    obtain ⟨hx, hy, hz, hw⟩ := absDiff_chan (b1 k) (b2 k)
    rw [compareLoop_succ]
    simp only [compareBody]
    rw [hx, hy, hz, hw]
    refine ⟨?_, ?_⟩
    · have := ih.1
      simp only [le_max_iff]
      omega
    · intro i hi c
      rcases Nat.lt_succ_iff_lt_or_eq.mp hi with hlt | heq
      · have := ih.2 i hlt c
        simp only [le_max_iff]
        omega
      · subst heq
        cases c <;> simp only [le_max_iff, le_refl, true_or, or_true]

theorem compareLoop_maxError_attained (b1 b2 : Buffer) (n : Nat) :
    (compareLoop b1 b2 n).maxError = -1
    ∨ ∃ i, i < n ∧ ∃ c : Channel,
        (compareLoop b1 b2 n).maxError = |(b1 i).chan c - (b2 i).chan c| := by
  induction n with
  | zero => exact Or.inl rfl
  | succ k ih =>
    obtain ⟨hx, hy, hz, hw⟩ := absDiff_chan (b1 k) (b2 k)
    rw [compareLoop_succ]
    simp only [compareBody]
    rw [hx, hy, hz, hw]
    have lift : (compareLoop b1 b2 k).maxError = -1
        ∨ ∃ i, i < k + 1 ∧ ∃ c : Channel,
            (compareLoop b1 b2 k).maxError = |(b1 i).chan c - (b2 i).chan c| := by
      rcases ih with h | ⟨i, hi, c, hc⟩
      · exact Or.inl h
      · exact Or.inr ⟨i, Nat.lt_succ_of_lt hi, c, hc⟩
    have step : ∀ (m : Int) (c : Channel),
        (m = -1 ∨ ∃ i, i < k + 1 ∧ ∃ c : Channel, m = |(b1 i).chan c - (b2 i).chan c|) →
        (max m |(b1 k).chan c - (b2 k).chan c| = -1
          ∨ ∃ i, i < k + 1 ∧ ∃ c' : Channel,
              max m |(b1 k).chan c - (b2 k).chan c| = |(b1 i).chan c' - (b2 i).chan c'|) := by
      intro m c hm
      rcases max_choice m |(b1 k).chan c - (b2 k).chan c| with h | h
      · rw [h]; exact hm
      · rw [h]; exact Or.inr ⟨k, Nat.lt_succ_self k, c, rfl⟩
    exact step _ Channel.w (step _ Channel.z (step _ Channel.y (step _ Channel.x lift)))

theorem compareBuffers_eq_some (buf_size : Int) (h : 0 ≤ buf_size) (b1 b2 : Buffer) :
    compareBuffers buf_size b1 b2
      = some { averageError :=
                 F32.div (roundF32 ((compareLoop b1 b2 buf_size.toNat).sum : ℚ))
                   (roundF32 (buf_size : ℚ)),
               maxError := (compareLoop b1 b2 buf_size.toNat).maxError } := by
  unfold compareBuffers
  rw [if_neg (not_lt.mpr h)]

theorem compareBuffers_zero (b1 b2 : Buffer) :
    compareBuffers 0 b1 b2 = some { averageError := F32.nan, maxError := -1 } := by
  rw [compareBuffers_eq_some 0 (le_refl _)]
  have h0 : (compareLoop b1 b2 (0 : Int).toNat).sum = 0 := rfl
  have h1 : (compareLoop b1 b2 (0 : Int).toNat).maxError = -1 := rfl
  rw [h0, h1]
  simp [roundF32_zero, F32.div]

theorem compareLoop_maxError_nonneg (b1 b2 : Buffer) (n : Nat) (hn : 1 ≤ n) :
    0 ≤ (compareLoop b1 b2 n).maxError :=
  le_trans (abs_nonneg _) ((compareLoop_maxError_ge b1 b2 n).2 0 hn Channel.x)

theorem compareLoop_maxError_le (b1 b2 : Buffer) (n : Nat) :
    (compareLoop b1 b2 n).maxError ≤ 255 := by
  rcases compareLoop_maxError_attained b1 b2 n with h | ⟨i, _, c, hc⟩
  · rw [h]; decide
  · rw [hc]; exact chan_abs_le _ _ c

theorem total_const (n : Nat) :
    (∑ i in Finset.range n, ∑ c : Channel, |(bufHigh i).chan c - (bufLow i).chan c|)
      = 1020 * (n : Int) := by
  have hin : ∀ i : Nat, (∑ c : Channel, |(bufHigh i).chan c - (bufLow i).chan c|) = 1020 := by
    intro i
    rw [sum_channels]
    rfl
  simp only [hin, Finset.sum_const, Finset.card_range, nsmul_eq_mul]
  ring

/-! ## Claims on `compareBuffers` -/

/-- C1: for every `buf_size >= 1` and every two buffers, `compareBuffers` returns, and
the value it returns is the greatest of the absolute differences
`|b1[i].c - b2[i].c|` over the pixel indices `0 <= i < buf_size` and the four
channels `c`. -/
theorem compareBuffers_returns_max (buf_size : Int) (hsize : 1 ≤ buf_size) (b1 b2 : Buffer) :
    ∃ res, compareBuffers buf_size b1 b2 = some res
      ∧ IsGreatest
          {d : Int | ∃ i : Nat, (i : Int) < buf_size
            ∧ ∃ c : Channel, d = |(b1 i).chan c - (b2 i).chan c|}
          res.maxError := by
  refine ⟨_, compareBuffers_eq_some buf_size (by omega) b1 b2, ?_, ?_⟩
  · have hn : 1 ≤ buf_size.toNat := by omega
    rcases compareLoop_maxError_attained b1 b2 buf_size.toNat with h | ⟨i, hi, c, hc⟩
    · have := compareLoop_maxError_nonneg b1 b2 buf_size.toNat hn
      omega
    · exact ⟨i, by omega, c, hc⟩
  · rintro d ⟨i, hi, c, rfl⟩
    exact (compareLoop_maxError_ge b1 b2 buf_size.toNat).2 i (by omega) c

/-- Witness of C1: two buffers of three pixels. -/
theorem compareBuffers_returns_max_witness :
    (1 : Int) ≤ 3
    ∧ ∃ res, compareBuffers 3 bufRamp bufOnes = some res
      ∧ IsGreatest
          {d : Int | ∃ i : Nat, (i : Int) < 3
            ∧ ∃ c : Channel, d = |(bufRamp i).chan c - (bufOnes i).chan c|}
          res.maxError :=
  ⟨by decide, compareBuffers_returns_max 3 (by decide) bufRamp bufOnes⟩

/-- C5: for every `buf_size >= 1` and every two buffers, `compareBuffers` returns one
integer between 0 and 255 inclusive; and whenever it returns, the value is the
sentinel -1 exactly when `buf_size = 0`. -/
theorem compareBuffers_maxError_range (buf_size : Int) (b1 b2 : Buffer) :
    (1 ≤ buf_size →
      ∃ res, compareBuffers buf_size b1 b2 = some res
        ∧ 0 ≤ res.maxError ∧ res.maxError ≤ 255)
    ∧ (∀ res, compareBuffers buf_size b1 b2 = some res →
        (res.maxError = -1 ↔ buf_size = 0)) := by
  refine ⟨?_, ?_⟩
  · intro hsize
    exact ⟨_, compareBuffers_eq_some buf_size (by omega) b1 b2,
      compareLoop_maxError_nonneg b1 b2 _ (by omega), compareLoop_maxError_le b1 b2 _⟩
  · intro res hres
    by_cases hneg : buf_size < 0
    · simp [compareBuffers, hneg] at hres
    · rw [compareBuffers_eq_some buf_size (by omega) b1 b2] at hres
      have hmax : res.maxError = (compareLoop b1 b2 buf_size.toNat).maxError := by
        rw [← Option.some.inj hres]
      rw [hmax]
      constructor
      · intro h
        by_contra hne
        have := compareLoop_maxError_nonneg b1 b2 buf_size.toNat (by omega)
        omega
      · intro h
        subst h
        rfl

/-- Witness of C5: at `buf_size = 3` the value returned lies in `[0, 255]`, and at
`buf_size = 0` the value returned is -1 (the average streamed there is `0.0f / 0`,
not a number). -/
theorem compareBuffers_maxError_range_witness :
    ((1 : Int) ≤ 3
      ∧ ∃ res, compareBuffers 3 bufRamp bufHigh = some res
          ∧ 0 ≤ res.maxError ∧ res.maxError ≤ 255)
    ∧ (compareBuffers 0 bufRamp bufHigh = some { averageError := F32.nan, maxError := -1 }
      ∧ ((-1 : Int) = -1 ↔ (0 : Int) = 0)) :=
  ⟨⟨by decide, (compareBuffers_maxError_range 3 bufRamp bufHigh).1 (by decide)⟩,
   compareBuffers_zero bufRamp bufHigh,
   (compareBuffers_maxError_range 0 bufRamp bufHigh).2
     { averageError := F32.nan, maxError := -1 } (compareBuffers_zero bufRamp bufHigh)⟩

/-- C9: the accumulator `sum` of `compareBuffers` does not overflow for
`buf_size <= 2105376`, in particular for the `1234 * 1234 = 1522756` pixels of
`brushTest`: after every number `k <= buf_size` of iterations the exact sum of the
absolute differences is at most `4 * 255 * buf_size < 2^31` and the machine value of
`sum` equals it, and none of the four `+=` of an iteration wraps; at
`buf_size = 2105377` there are buffers for which the machine value differs from the
exact sum. -/
theorem compareBuffers_sum_no_overflow :
    (∀ (buf_size : Nat), buf_size ≤ 2105376 → ∀ (b1 b2 : Buffer) (k : Nat), k ≤ buf_size →
      (∑ i in Finset.range k, ∑ c : Channel, |(b1 i).chan c - (b2 i).chan c|)
          ≤ 4 * 255 * (buf_size : Int)
      ∧ 4 * 255 * (buf_size : Int) < 2 ^ 31
      ∧ (compareLoop b1 b2 k).sum
          = ∑ i in Finset.range k, ∑ c : Channel, |(b1 i).chan c - (b2 i).chan c|
      ∧ (k < buf_size →
          let s := (compareLoop b1 b2 k).sum
          let dx := absDiff (b1 k).x (b2 k).x
          let dy := absDiff (b1 k).y (b2 k).y
          let dz := absDiff (b1 k).z (b2 k).z
          let dw := absDiff (b1 k).w (b2 k).w
          wrap32 (s + dx) = s + dx
          ∧ wrap32 (s + dx + dy) = s + dx + dy
          ∧ wrap32 (s + dx + dy + dz) = s + dx + dy + dz
          ∧ wrap32 (s + dx + dy + dz + dw) = s + dx + dy + dz + dw))
    ∧ ((1234 : Int) * 1234 = 1522756 ∧ (1522756 : Nat) ≤ 2105376
        ∧ (4 : Int) * 255 * 1522756 = 1553211120 ∧ (1553211120 : Int) < 2 ^ 31)
    ∧ (∃ b1 b2 : Buffer,
        (compareLoop b1 b2 2105377).sum
          ≠ ∑ i in Finset.range 2105377, ∑ c : Channel, |(b1 i).chan c - (b2 i).chan c|) := by
  refine ⟨?_, ⟨by norm_num, by norm_num, by norm_num, by norm_num⟩, ?_⟩
  · intro buf_size hsize b1 b2 k hk
    have hle := total_le b1 b2 k
    have h0 := total_nonneg b1 b2 k
    have hsum : (compareLoop b1 b2 k).sum
        = ∑ i in Finset.range k, ∑ c : Channel, |(b1 i).chan c - (b2 i).chan c| := by
      rw [compareLoop_sum]
      exact wrap32_of_range _ (by omega) (by omega)
    refine ⟨by omega, by omega, hsum, ?_⟩
    intro hlt
    have hx0 := absDiff_nonneg (b1 k).x (b2 k).x
    have hy0 := absDiff_nonneg (b1 k).y (b2 k).y
    have hz0 := absDiff_nonneg (b1 k).z (b2 k).z
    have hw0 := absDiff_nonneg (b1 k).w (b2 k).w
    have hx1 := absDiff_le (b1 k).x (b2 k).x
    have hy1 := absDiff_le (b1 k).y (b2 k).y
    have hz1 := absDiff_le (b1 k).z (b2 k).z
    have hw1 := absDiff_le (b1 k).w (b2 k).w
    simp only
    rw [hsum]
    refine ⟨wrap32_of_range _ (by omega) (by omega), wrap32_of_range _ (by omega) (by omega),
      wrap32_of_range _ (by omega) (by omega), wrap32_of_range _ (by omega) (by omega)⟩
  · refine ⟨bufHigh, bufLow, ?_⟩
    rw [compareLoop_sum, total_const]
    norm_num [wrap32]

/-- Witness of C9: the bound applied to the buffer size of `brushTest` and to two
concrete buffers, after all `1522756` iterations. -/
theorem compareBuffers_sum_no_overflow_witness :
    (1522756 : Nat) ≤ 2105376 ∧ (1522756 : Nat) ≤ 1522756
    ∧ (compareLoop bufRamp bufHigh 1522756).sum
        = ∑ i in Finset.range 1522756,
            ∑ c : Channel, |(bufRamp i).chan c - (bufHigh i).chan c| :=
  ⟨by decide, le_refl _,
   (compareBuffers_sum_no_overflow.1 1522756 (by decide) bufRamp bufHigh 1522756
      (le_refl _)).2.2.1⟩

/-! ## Lemmas on the loops of `brushTest` -/

theorem paintCentres_append (t : Backend) (l l2 : List Call) :
    paintCentres t (l ++ l2) = paintCentres t l ++ paintCentres t l2 := by
  unfold paintCentres
  exact List.filterMap_append l l2 _

theorem paintCentres_pair (t : Backend) (x y : Int) :
    paintCentres t [Call.paint Backend.cpu x y, Call.paint Backend.gpu x y] = [(x, y)] := by
  cases t <;> rfl

theorem paintCentres_setupCalls (t : Backend) (brushType : BrushType) (brush_size d1 d2 : Int) :
    paintCentres t (setupCalls brushType brush_size d1 d2) = [] := by
  cases brushType <;> rfl

theorem forLoop_lineBody_rng (n : Nat) (s : HarnessState) :
    (forLoop lineBody n s).rng = s.rng := by
  induction n with
  | zero => rfl
  | succ k ih => exact ih

theorem forLoop_lineBody_centres (t : Backend) (n : Nat) (s : HarnessState) :
    paintCentres t (forLoop lineBody n s).calls
      = paintCentres t s.calls
          ++ (List.range n).map fun (i : Nat) => ((i : Int) * 3, (i : Int) * 5) := by
  induction n with
  | zero => simp [forLoop]
  | succ k ih =>
    show paintCentres t ((forLoop lineBody k s).calls ++ _) = _
    rw [paintCentres_append, paintCentres_pair, ih, List.range_succ, List.map_append,
      List.append_assoc]
    rfl

theorem forLoop_dotsBody_rng (gen : Int → Nat → Int) (d1 d2 : Int) (n : Nat)
    (s : HarnessState) :
    (forLoop (dotsBody gen d1 d2) n s).rng
      = { seed := s.rng.seed, draws := s.rng.draws + 2 * n } := by
  induction n with
  | zero => rfl
  | succ k ih =>
    show ({ seed := (forLoop (dotsBody gen d1 d2) k s).rng.seed,
            draws := (forLoop (dotsBody gen d1 d2) k s).rng.draws + 1 + 1 } : RandState) = _
    rw [ih]
    simp only [RandState.mk.injEq, true_and]
    omega

theorem forLoop_dotsBody_centres (gen : Int → Nat → Int) (d1 d2 : Int) (t : Backend)
    (n : Nat) (s : HarnessState) :
    paintCentres t (forLoop (dotsBody gen d1 d2) n s).calls
      = paintCentres t s.calls
          ++ (List.range n).map fun (k : Nat) =>
              (cMod (gen s.rng.seed (s.rng.draws + 2 * k)) d1,
               cMod (gen s.rng.seed (s.rng.draws + (2 * k + 1))) d2) := by
  induction n with
  | zero => simp [forLoop]
  | succ k ih =>
    show paintCentres t ((forLoop (dotsBody gen d1 d2) k s).calls ++ _) = _
    rw [paintCentres_append, paintCentres_pair, ih, List.range_succ, List.map_append,
      List.append_assoc]
    simp only [rand, forLoop_dotsBody_rng, List.map_cons, List.map_nil, Nat.add_assoc]

theorem forLoop_lineBody_mem (n : Nat) (s : HarnessState) (c : Call) (hc : c ∈ s.calls) :
    c ∈ (forLoop lineBody n s).calls := by
  induction n with
  | zero => exact hc
  | succ k ih => exact List.mem_append_left _ ih

theorem forLoop_dotsBody_mem (gen : Int → Nat → Int) (d1 d2 : Int) (n : Nat)
    (s : HarnessState) (c : Call) (hc : c ∈ s.calls) :
    c ∈ (forLoop (dotsBody gen d1 d2) n s).calls := by
  induction n with
  | zero => exact hc
  | succ k ih => exact List.mem_append_left _ ih

theorem brushTestDrive_setDimensions (gen : Int → Nat → Int) (rng0 : RandState)
    (brushType : BrushType) (brush_size d1 d2 : Int) (t : Backend) :
    Call.setDimensions t d1 d2 ∈ (brushTestDrive gen rng0 brushType brush_size d1 d2).calls := by
  unfold brushTestDrive
  simp only []
  apply forLoop_dotsBody_mem
  apply forLoop_lineBody_mem
  cases t <;> simp [setupCalls]

theorem brushTestDrive_centres (gen : Int → Nat → Int) (rng0 : RandState)
    (brushType : BrushType) (brush_size : Int) (t : Backend) :
    paintCentres t (brushTestDrive gen rng0 brushType brush_size 1234 1234).calls
      = sweepCentres ++ dotCentres (gen 123) := by
  unfold brushTestDrive
  simp only []
  rw [forLoop_dotsBody_centres]
  show paintCentres t (forLoop lineBody 200 _).calls ++ _ = _
  rw [forLoop_lineBody_centres, paintCentres_setupCalls, List.nil_append]
  simp only [srand, Nat.zero_add]
  rfl

theorem brushTest_eq_some (gen : Int → Nat → Int) (device : List Call → Buffer × Buffer)
    (rng0 : RandState) (brushType : BrushType) (brush_size : Int) :
    ∃ res, brushTest gen device rng0 brushType brush_size = some res
      ∧ res.calls = (brushTestDrive gen rng0 brushType brush_size 1234 1234).calls
      ∧ res.returned
          = (compareLoop (device (brushTestDrive gen rng0 brushType brush_size 1234 1234).calls).1
              (device (brushTestDrive gen rng0 brushType brush_size 1234 1234).calls).2
              1522756).maxError
      ∧ Out.maxError res.returned ∈ res.output := by
  unfold brushTest
  simp only []
  rw [compareBuffers_eq_some _ (by norm_num)]
  refine ⟨_, rfl, rfl, ?_, ?_⟩
  · rfl
  · simp

theorem sweepCentres_length : sweepCentres.length = 200 := by
  simp [sweepCentres]

theorem dotCentres_length (r : Nat → Int) : (dotCentres r).length = 300 := by
  simp [dotCentres]

theorem sweepCentres_getElem? (i : Nat) (hi : i < 200) :
    sweepCentres[i]? = some ((i : Int) * 3, (i : Int) * 5) := by
  simp [sweepCentres, List.getElem?_map, List.getElem?_range hi]

theorem dotCentres_getElem? (r : Nat → Int) (k : Nat) (hk : k < 300) :
    (dotCentres r)[k]? = some (cMod (r (2 * k)) 1234, cMod (r (2 * k + 1)) 1234) := by
  simp [dotCentres, List.getElem?_map, List.getElem?_range hk]

theorem cMod_range (r : Int) (hr : 0 ≤ r) : 0 ≤ cMod r 1234 ∧ cMod r 1234 < 1234 :=
  ⟨Int.tmod_nonneg 1234 hr, Int.tmod_lt_of_pos r (by decide)⟩

/-! ## Claims on `brushTest` and `runTests` -/

/-- C8: with the generator explicit, `brushTest` returns, and the centres it has
passed to `cpu.paint` are, in order, those it has passed to `gpu.paint`; there are
500 of them, the first 200 being `(3i, 5i)` for `i = 0..199` and the remaining 300
being `(r (2k) % 1234, r (2k+1) % 1234)` for `k = 0..299`, where `r` is the stream
of the generator seeded with 123 and `%` is the operator of C++, which is the
mathematical remainder on the non-negative outputs of `rand()`. -/
theorem brushTest_scripted_sequence (gen : Int → Nat → Int)
    (device : List Call → Buffer × Buffer) (rng0 : RandState) (brushType : BrushType)
    (brush_size : Int) :
    ∃ res, brushTest gen device rng0 brushType brush_size = some res
      ∧ paintCentres Backend.cpu res.calls = paintCentres Backend.gpu res.calls
      ∧ (paintCentres Backend.cpu res.calls).length = 500
      ∧ (∀ i : Nat, i < 200 →
          (paintCentres Backend.cpu res.calls)[i]? = some (3 * (i : Int), 5 * (i : Int)))
      ∧ (∀ k : Nat, k < 300 →
          (paintCentres Backend.cpu res.calls)[200 + k]?
            = some (cMod (gen 123 (2 * k)) 1234, cMod (gen 123 (2 * k + 1)) 1234))
      ∧ (∀ v : Int, 0 ≤ v → cMod v 1234 = v % 1234) := by
  obtain ⟨res, hres, hcalls, -, -⟩ := brushTest_eq_some gen device rng0 brushType brush_size
  refine ⟨res, hres, ?_, ?_, ?_, ?_, ?_⟩
  · rw [hcalls, brushTestDrive_centres, brushTestDrive_centres]
  · rw [hcalls, brushTestDrive_centres, List.length_append, sweepCentres_length,
      dotCentres_length]
  · intro i hi
    rw [hcalls, brushTestDrive_centres,
      List.getElem?_append_left (by rw [sweepCentres_length]; exact hi),
      sweepCentres_getElem? i hi, mul_comm (i : Int) 3, mul_comm (i : Int) 5]
  · intro k hk
    rw [hcalls, brushTestDrive_centres,
      List.getElem?_append_right (by rw [sweepCentres_length]; omega), sweepCentres_length,
      Nat.add_sub_cancel_left, dotCentres_getElem? _ k hk]
  · intro v hv
    exact Int.tmod_eq_emod hv (by decide)

/-- C10: when the outputs of the generator seeded with 123 are non-negative, as
those of `rand()` are, `brushTest` returns, it has configured either painter with
`setDimensions(1234, 1234, ..)`, and every centre `(x, y)` it has passed to
`paint`, on either painter, satisfies `0 <= x < 1234` and `0 <= y < 1234`; the
sweep point of every `i < 200` is `(3i, 5i)` with `3i <= 597` and `5i <= 995`, and
`r % 1234` lies in `[0, 1234)` for every non-negative `r`. -/
theorem brushTest_centres_in_buffer (gen : Int → Nat → Int)
    (hgen : ∀ k : Nat, 0 ≤ gen 123 k)
    (device : List Call → Buffer × Buffer) (rng0 : RandState) (brushType : BrushType)
    (brush_size : Int) :
    ∃ res, brushTest gen device rng0 brushType brush_size = some res
      ∧ (∀ t : Backend, Call.setDimensions t 1234 1234 ∈ res.calls)
      ∧ (∀ (t : Backend) (c : Int × Int), c ∈ paintCentres t res.calls →
          0 ≤ c.1 ∧ c.1 < 1234 ∧ 0 ≤ c.2 ∧ c.2 < 1234)
      ∧ (∀ (t : Backend) (i : Nat), i < 200 →
          (paintCentres t res.calls)[i]? = some (3 * (i : Int), 5 * (i : Int))
          ∧ 0 ≤ 3 * (i : Int) ∧ 3 * (i : Int) ≤ 597 ∧ 0 ≤ 5 * (i : Int) ∧ 5 * (i : Int) ≤ 995)
      ∧ (∀ r : Int, 0 ≤ r → 0 ≤ cMod r 1234 ∧ cMod r 1234 < 1234) := by
  obtain ⟨res, hres, hcalls, -, -⟩ := brushTest_eq_some gen device rng0 brushType brush_size
  refine ⟨res, hres, ?_, ?_, ?_, cMod_range⟩
  · intro t
    rw [hcalls]
    exact brushTestDrive_setDimensions gen rng0 brushType brush_size 1234 1234 t
  · intro t c hc
    rw [hcalls, brushTestDrive_centres, List.mem_append] at hc
    rcases hc with hc | hc
    · unfold sweepCentres at hc
      obtain ⟨i, hi, rfl⟩ := List.mem_map.mp hc
      have hi200 := List.mem_range.mp hi
      simp only
      omega
    · unfold dotCentres at hc
      obtain ⟨k, -, rfl⟩ := List.mem_map.mp hc
      have hx := cMod_range _ (hgen (2 * k))
      have hy := cMod_range _ (hgen (2 * k + 1))
      exact ⟨hx.1, hx.2, hy.1, hy.2⟩
  · intro t i hi
    refine ⟨?_, by omega, by omega, by omega, by omega⟩
    rw [hcalls, brushTestDrive_centres,
      List.getElem?_append_left (by rw [sweepCentres_length]; exact hi),
      sweepCentres_getElem? i hi, mul_comm (i : Int) 3, mul_comm (i : Int) 5]

/-- Witness of C10: the generator `genStep`, whose outputs are non-negative. -/
theorem brushTest_centres_in_buffer_witness :
    (∀ k : Nat, 0 ≤ genStep 123 k)
    ∧ ∃ res, brushTest genStep deviceSame rngFresh BrushType.Default 200 = some res
      ∧ (∀ (t : Backend) (c : Int × Int), c ∈ paintCentres t res.calls →
          0 ≤ c.1 ∧ c.1 < 1234 ∧ 0 ≤ c.2 ∧ c.2 < 1234) :=
  ⟨fun _ => Int.ofNat_nonneg _,
   (brushTest_centres_in_buffer genStep (fun _ => Int.ofNat_nonneg _) deviceSame rngFresh
      BrushType.Default 200).imp fun _ h => ⟨h.1, h.2.2.1⟩⟩

theorem compareLoop_apart_maxError (n : Nat) (hn : 1 ≤ n) :
    (compareLoop bufHigh bufLow n).maxError = 255 := by
  apply le_antisymm (compareLoop_maxError_le _ _ n)
  exact (compareLoop_maxError_ge bufHigh bufLow n).2 0 hn Channel.x

theorem compareLoop_same_maxError (n : Nat) (hn : 1 ≤ n) :
    (compareLoop bufLow bufLow n).maxError = 0 := by
  apply le_antisymm _ (compareLoop_maxError_nonneg _ _ n hn)
  rcases compareLoop_maxError_attained bufLow bufLow n with h | ⟨i, _, c, hc⟩
  · rw [h]; decide
  · rw [hc]
    cases c <;> exact le_of_eq rfl

theorem runTests_eq_some (gen : Int → Nat → Int) (device : List Call → Buffer × Buffer)
    (rng0 : RandState) (argc argv2 : Int) :
    ∃ res t1 t2 t3 rng1 rng2,
      runTests gen device rng0 argc argv2 = some res
      ∧ res.returned = 0
      ∧ brushTest gen device rng0 BrushType.Default (if argc > 2 then argv2 else 200) = some t1
      ∧ brushTest gen device rng1 BrushType.Textured (if argc > 2 then argv2 else 200) = some t2
      ∧ brushTest gen device rng2 BrushType.Smooth (if argc > 2 then argv2 else 200) = some t3
      ∧ Out.maxError t1.returned ∈ res.output
      ∧ Out.maxError t2.returned ∈ res.output
      ∧ Out.maxError t3.returned ∈ res.output := by
  obtain ⟨t1, h1, -, -, m1⟩ :=
    brushTest_eq_some gen device rng0 BrushType.Default (if argc > 2 then argv2 else 200)
  obtain ⟨t2, h2, -, -, m2⟩ :=
    brushTest_eq_some gen device t1.rng BrushType.Textured (if argc > 2 then argv2 else 200)
  obtain ⟨t3, h3, -, -, m3⟩ :=
    brushTest_eq_some gen device t2.rng BrushType.Smooth (if argc > 2 then argv2 else 200)
  refine ⟨{ rng := t3.rng
            output :=
              [Out.text "----------------------------------------------------",
                Out.text "Default brush tests:"] ++ t1.output
              ++ [Out.text "----------------------------------------------------",
                Out.text "Textured brush tests:"] ++ t2.output
              ++ [Out.text "----------------------------------------------------",
                Out.text "Smooth brush tests:"] ++ t3.output
            returned := 0 },
    t1, t2, t3, t1.rng, t2.rng, ?_, ?_, h1, h2, h3, ?_, ?_, ?_⟩
  · unfold runTests
    simp only [h1, h2, h3]
  · rfl
  · simp only [List.mem_append]
    exact Or.inl (Or.inl (Or.inl (Or.inl (Or.inr m1))))
  · simp only [List.mem_append]
    exact Or.inl (Or.inl (Or.inr m2))
  · simp only [List.mem_append]
    exact Or.inr m3

/-- C2, as amended: `runTests` returns, and the value it returns is 0 whatever the
maximum errors: for each of the three brush types it runs `brushTest`, whose output
line "Max error" carries the value `brushTest` returns, and that value is compared
with no bound. -/
theorem runTests_returns_zero (gen : Int → Nat → Int)
    (device : List Call → Buffer × Buffer) (rng0 : RandState) (argc argv2 : Int) :
    ∃ res, runTests gen device rng0 argc argv2 = some res
      ∧ res.returned = 0
      ∧ ∀ brushType : BrushType, ∃ rng t,
          brushTest gen device rng brushType (if argc > 2 then argv2 else 200) = some t
          ∧ Out.maxError t.returned ∈ res.output := by
  obtain ⟨res, t1, t2, t3, rng1, rng2, hres, hret, h1, h2, h3, m1, m2, m3⟩ :=
    runTests_eq_some gen device rng0 argc argv2
  refine ⟨res, hres, hret, ?_⟩
  intro brushType
  cases brushType
  · exact ⟨rng0, t1, h1, m1⟩
  · exact ⟨rng1, t2, h2, m2⟩
  · exact ⟨rng2, t3, h3, m3⟩

/-- C2, counterexample: with painters that leave the buffers 255 apart,
`brushTest` returns 255, above the bound 2; with painters that leave them equal it
returns 0; the two runs of `runTests` return the same value. -/
theorem runTests_tolerance_counterexample :
    ∃ bad good runBad runGood,
      brushTest genStep deviceApart rngFresh BrushType.Default 200 = some bad
      ∧ bad.returned = 255 ∧ 2 < bad.returned
      ∧ brushTest genStep deviceSame rngFresh BrushType.Default 200 = some good
      ∧ good.returned = 0 ∧ good.returned ≤ 2
      ∧ runTests genStep deviceApart rngFresh 1 0 = some runBad
      ∧ runTests genStep deviceSame rngFresh 1 0 = some runGood
      ∧ runBad.returned = runGood.returned := by
  obtain ⟨bad, hbad, -, rbad, -⟩ :=
    brushTest_eq_some genStep deviceApart rngFresh BrushType.Default 200
  obtain ⟨good, hgood, -, rgood, -⟩ :=
    brushTest_eq_some genStep deviceSame rngFresh BrushType.Default 200
  obtain ⟨runBad, -, -, -, -, -, hrb, zb, -⟩ := runTests_eq_some genStep deviceApart rngFresh 1 0
  obtain ⟨runGood, -, -, -, -, -, hrg, zg, -⟩ := runTests_eq_some genStep deviceSame rngFresh 1 0
  have e1 : bad.returned = 255 := by
    rw [rbad]
    exact compareLoop_apart_maxError 1522756 (by decide)
  have e2 : good.returned = 0 := by
    rw [rgood]
    exact compareLoop_same_maxError 1522756 (by decide)
  refine ⟨bad, good, runBad, runGood, hbad, e1, ?_, hgood, e2, ?_, hrb, hrg, ?_⟩
  · rw [e1]; decide
  · rw [e2]; decide
  · rw [zb, zg]

/-! ## Claims on the painter classes -/

/-- C7: for every painter and every `BrushSettings` value `s`, after `setBrush(s)`
each field of the brush settings of the painter equals the field of `s`, and the
values that `getWidth` and `getHeight` return are unchanged; the same holds of a
`GPUPainter`, which inherits `setBrush`. -/
theorem setBrush_replaces_by_value {F : Type} (p : Painter F) (g : GPUPainter F)
    (s : BrushSettings F) :
    ((p.setBrush s).brushSettings.color = s.color
      ∧ (p.setBrush s).brushSettings.falloff = s.falloff
      ∧ (p.setBrush s).brushSettings.heightPressure = s.heightPressure
      ∧ (p.setBrush s).brushSettings.pressure = s.pressure
      ∧ (p.setBrush s).brushSettings.size = s.size
      ∧ (p.setBrush s).brushSettings.normalBending = s.normalBending
      ∧ (p.setBrush s).getWidth = p.getWidth
      ∧ (p.setBrush s).getHeight = p.getHeight)
    ∧ ((g.setBrush s).base.brushSettings = s
      ∧ (g.setBrush s).getWidth = g.getWidth
      ∧ (g.setBrush s).getHeight = g.getHeight) :=
  ⟨⟨rfl, rfl, rfl, rfl, rfl, rfl, rfl, rfl⟩, rfl, rfl, rfl⟩

theorem Painter_setDimensions_eq {F : Type} (p : Painter F) (w h capacity : Int)
    (hw : 0 < w) (hh : 0 < h) (hcap : w * h ≤ capacity) :
    p.setDimensions w h capacity = some { p with w := w, h := h } := by
  unfold Painter.setDimensions
  rw [if_pos ⟨hw, hh, hcap⟩]

theorem Painter_setDimensions_some {F : Type} (p p2 : Painter F) (w h capacity : Int)
    (hp : p.setDimensions w h capacity = some p2) :
    0 < w ∧ 0 < h ∧ w * h ≤ capacity ∧ p2 = { p with w := w, h := h } := by
  unfold Painter.setDimensions at hp
  by_cases hc : 0 < w ∧ 0 < h ∧ w * h ≤ capacity
  · rw [if_pos hc] at hp
    exact ⟨hc.1, hc.2.1, hc.2.2, (Option.some.inj hp).symm⟩
  · rw [if_neg hc] at hp
    exact absurd hp (by simp)

/-- C6: for every `w > 0` and `h > 0`, once `setDimensions(w, h, buffer)` has been
carried out on a painter, a `GPUPainter` included, the accessors `getWidth()` and
`getHeight()` of that painter return `w` and `h`; and the call is carried out
whenever the buffer holds at least `w * h` pixels. -/
theorem setDimensions_then_accessors {F : Type} (p : Painter F) (g : GPUPainter F)
    (w h capacity : Int) (hw : 0 < w) (hh : 0 < h) :
    (∀ p2, p.setDimensions w h capacity = some p2 → p2.getWidth = w ∧ p2.getHeight = h)
    ∧ (∀ g2, g.setDimensions w h capacity = some g2 → g2.getWidth = w ∧ g2.getHeight = h)
    ∧ (w * h ≤ capacity →
        (∃ p2, p.setDimensions w h capacity = some p2)
        ∧ ∃ g2, g.setDimensions w h capacity = some g2) := by
  refine ⟨?_, ?_, ?_⟩
  · intro p2 hp
    obtain ⟨-, -, -, rfl⟩ := Painter_setDimensions_some p p2 w h capacity hp
    exact ⟨rfl, rfl⟩
  · intro g2 hg
    unfold GPUPainter.setDimensions at hg
    cases hb : g.base.setDimensions w h capacity with
    | none => rw [hb] at hg; exact absurd hg (by simp)
    | some b =>
      rw [hb] at hg
      obtain ⟨-, -, -, rfl⟩ := Painter_setDimensions_some g.base b w h capacity hb
      rw [← Option.some.inj hg]
      exact ⟨rfl, rfl⟩
  · intro hcap
    refine ⟨⟨_, Painter_setDimensions_eq p w h capacity hw hh hcap⟩, ?_⟩
    unfold GPUPainter.setDimensions
    rw [Painter_setDimensions_eq g.base w h capacity hw hh hcap]
    exact ⟨_, rfl⟩

/-- Witness of C6: the `GPUPainter` of `brushTest`, configured with
`setDimensions(1234, 1234, pbo2)` on a buffer of `1234 * 1234` pixels. -/
theorem setDimensions_then_accessors_witness :
    (0 : Int) < 1234
    ∧ ∃ g2, gpuFresh.setDimensions 1234 1234 1522756 = some g2
        ∧ g2.getWidth = 1234 ∧ g2.getHeight = 1234 :=
  ⟨by decide,
   (((setDimensions_then_accessors gpuFresh.base gpuFresh 1234 1234 1522756
        (by decide) (by decide)).2.2 (by decide)).2).imp fun g2 hg =>
      ⟨hg, (setDimensions_then_accessors gpuFresh.base gpuFresh 1234 1234 1522756
        (by decide) (by decide)).2.1 g2 hg⟩⟩

/-! ## The average error reported by `compareBuffers` -/

theorem float_average_bound (S n : Int) (hS0 : 0 ≤ S) (hS : S ≤ 1020 * n) (hn1 : 1 ≤ n)
    (hn2 : n ≤ 2105376) :
    ∃ v : ℚ, F32.div (roundF32 (S : ℚ)) (roundF32 (n : ℚ)) = F32.finite v
      ∧ |v - (S : ℚ) / (n : ℚ)| ≤ (S : ℚ) / (n : ℚ) / 2 ^ 22 := by
  have hnq : (1 : ℚ) ≤ (n : ℚ) := by exact_mod_cast hn1
  have hnq2 : (n : ℚ) ≤ 2105376 := by exact_mod_cast hn2
  have hnpos : (0 : ℚ) < (n : ℚ) := by linarith
  rw [roundF32_int n hn1 (by omega)]
  rcases eq_or_lt_of_le hS0 with h0 | hpos
  · refine ⟨0, ?_, ?_⟩
    · rw [← h0]
      simp only [Int.cast_zero]
      rw [roundF32_zero, F32_div_finite 0 (n : ℚ) hnpos.ne', zero_div, roundF32_zero]
    · rw [← h0]
      simp
  · have hSq : (1 : ℚ) ≤ (S : ℚ) := by exact_mod_cast (by omega : 1 ≤ S)
    have hSq2 : (S : ℚ) ≤ 1020 * (n : ℚ) := by exact_mod_cast hS
    have hSabs : |(S : ℚ)| = S := abs_of_pos (by linarith)
    obtain ⟨a, ha, hae⟩ := roundF32_near (S : ℚ) (by linarith)
      (by rw [hSabs]; norm_num; linarith) (by rw [hSabs]; norm_num; linarith)
    rw [hSabs] at hae
    obtain ⟨ha1, ha2⟩ := abs_le.mp hae
    have hsmall : (S : ℚ) / 2 ^ 24 ≤ (S : ℚ) / 2 := by
      apply div_le_div_of_nonneg_left (by linarith) (by norm_num) (by norm_num)
    have hapos : (0 : ℚ) < a := by linarith
    have hqpos : (0 : ℚ) < a / (n : ℚ) := div_pos hapos hnpos
    have hqabs : |a / (n : ℚ)| = a / (n : ℚ) := abs_of_pos hqpos
    have hx : (S : ℚ) / (n : ℚ) * (n : ℚ) = S := div_mul_cancel₀ _ hnpos.ne'
    have hq : a / (n : ℚ) * (n : ℚ) = a := div_mul_cancel₀ _ hnpos.ne'
    have hxpos : (0 : ℚ) < (S : ℚ) / (n : ℚ) := div_pos (by linarith) hnpos
    have hqx1 : a / (n : ℚ) ≤ (S : ℚ) / (n : ℚ) + (S : ℚ) / (n : ℚ) / 2 ^ 24 := by
      apply le_of_mul_le_mul_right _ hnpos
      have : ((S : ℚ) / (n : ℚ) + (S : ℚ) / (n : ℚ) / 2 ^ 24) * (n : ℚ)
          = (S : ℚ) + (S : ℚ) / 2 ^ 24 := by
        rw [add_mul, div_mul_eq_mul_div ((S : ℚ) / (n : ℚ)), hx]
      rw [hq, this]
      linarith
    have hqx2 : (S : ℚ) / (n : ℚ) - (S : ℚ) / (n : ℚ) / 2 ^ 24 ≤ a / (n : ℚ) := by
      apply le_of_mul_le_mul_right _ hnpos
      have : ((S : ℚ) / (n : ℚ) - (S : ℚ) / (n : ℚ) / 2 ^ 24) * (n : ℚ)
          = (S : ℚ) - (S : ℚ) / 2 ^ 24 := by
        rw [sub_mul, div_mul_eq_mul_div ((S : ℚ) / (n : ℚ)), hx]
      rw [hq, this]
      linarith
    have hqlo : (2 : ℚ) ^ (-126 : Int) ≤ a / (n : ℚ) := by
      rw [le_div_iff₀ hnpos]
      have hc : (2 : ℚ) ^ (-126 : Int) ≤ 1 / 2 ^ 24 := by norm_num
      have hc0 : (0 : ℚ) ≤ (2 : ℚ) ^ (-126 : Int) := by positivity
      calc (2 : ℚ) ^ (-126 : Int) * (n : ℚ) ≤ 1 / 2 ^ 24 * 2105376 :=
            mul_le_mul hc hnq2 (by linarith) (by norm_num)
        _ ≤ a := by norm_num at hsmall ⊢; linarith
    have hqhi : a / (n : ℚ) ≤ (2 : ℚ) ^ (100 : Int) := by
      have h1 : a / (n : ℚ) ≤ a := div_le_self hapos.le hnq
      have h2 : (2147483648 : ℚ) * 2 ≤ (2 : ℚ) ^ (100 : Int) := by norm_num
      norm_num at hsmall
      linarith
    obtain ⟨v, hv, hve⟩ := roundF32_near (a / (n : ℚ)) hqpos.ne' (by rw [hqabs]; exact hqlo)
      (by rw [hqabs]; exact hqhi)
    rw [hqabs] at hve
    obtain ⟨hv1, hv2⟩ := abs_le.mp hve
    refine ⟨v, ?_, ?_⟩
    · rw [ha, F32_div_finite a (n : ℚ) hnpos.ne', hv]
    · rw [abs_le]
      have e1 : a / (n : ℚ) / 2 ^ 24
          ≤ ((S : ℚ) / (n : ℚ) + (S : ℚ) / (n : ℚ) / 2 ^ 24) / 2 ^ 24 :=
        div_le_div_of_nonneg_right hqx1 (by norm_num)
      norm_num at e1 hqx1 hqx2 hv1 hv2 ⊢
      constructor <;> linarith


/-- C3, as amended: for every `buf_size` with `1 <= buf_size <= 2105376` and every two
buffers, `compareBuffers` returns, and the average error it reports is the
single-precision value of `(float)S / buf_size`, where `S` is the sum over all
pixels and all four channels of `|b1[i].c - b2[i].c|` and the divisor is the number
of pixels `buf_size`: it is a finite value within the relative distance `2^-22` of
the exact rational `S / buf_size`. -/
theorem compareBuffers_average_per_pixel (buf_size : Int) (hsize : 1 ≤ buf_size)
    (hmax : buf_size ≤ 2105376) (b1 b2 : Buffer) :
    ∃ res, compareBuffers buf_size b1 b2 = some res
      ∧ res.averageError
          = F32.div
              (roundF32 ((∑ i in Finset.range buf_size.toNat,
                ∑ c : Channel, |(b1 i).chan c - (b2 i).chan c| : Int) : ℚ))
              (roundF32 (buf_size : ℚ))
      ∧ ∃ v : ℚ, res.averageError = F32.finite v
          ∧ |v - ((∑ i in Finset.range buf_size.toNat,
                    ∑ c : Channel, |(b1 i).chan c - (b2 i).chan c| : Int) : ℚ)
                  / (buf_size : ℚ)|
              ≤ ((∑ i in Finset.range buf_size.toNat,
                    ∑ c : Channel, |(b1 i).chan c - (b2 i).chan c| : Int) : ℚ)
                  / (buf_size : ℚ) / 2 ^ 22 := by
  have hle := total_le b1 b2 buf_size.toNat
  have h0 := total_nonneg b1 b2 buf_size.toNat
  have hsum : (compareLoop b1 b2 buf_size.toNat).sum
      = ∑ i in Finset.range buf_size.toNat,
          ∑ c : Channel, |(b1 i).chan c - (b2 i).chan c| := by
    rw [compareLoop_sum, wrap32_of_range _ (by omega) (by omega)]
  refine ⟨_, compareBuffers_eq_some buf_size (by omega) b1 b2, ?_, ?_⟩
  · show F32.div (roundF32 ((compareLoop b1 b2 buf_size.toNat).sum : ℚ)) _ = _
    rw [hsum]
  · show ∃ v : ℚ, F32.div (roundF32 ((compareLoop b1 b2 buf_size.toNat).sum : ℚ)) _ = _ ∧ _
    rw [hsum]
    exact float_average_bound _ buf_size h0 (by omega) hsize hmax

/-- Witness of C3 as amended: two buffers of seven pixels. -/
theorem compareBuffers_average_per_pixel_witness :
    (1 : Int) ≤ 7 ∧ (7 : Int) ≤ 2105376
    ∧ ∃ res, compareBuffers 7 bufRamp bufOnes = some res
      ∧ ∃ v : ℚ, res.averageError = F32.finite v
          ∧ |v - ((∑ i in Finset.range (7 : Int).toNat,
                    ∑ c : Channel, |(bufRamp i).chan c - (bufOnes i).chan c| : Int) : ℚ)
                  / ((7 : Int) : ℚ)|
              ≤ ((∑ i in Finset.range (7 : Int).toNat,
                    ∑ c : Channel, |(bufRamp i).chan c - (bufOnes i).chan c| : Int) : ℚ)
                  / ((7 : Int) : ℚ) / 2 ^ 22 :=
  ⟨by decide, by decide,
   (compareBuffers_average_per_pixel 7 (by decide) (by decide) bufRamp bufOnes).imp
     fun _ h => ⟨h.1, h.2.2⟩⟩

theorem roundF32_nat_small (n : Nat) (h1 : 1 ≤ n) (h2 : n < 16777216) :
    roundF32 (n : ℚ) = F32.finite (n : ℚ) := by
  have := roundF32_int (n : Int) (by omega) (by omega)
  simpa using this

set_option maxRecDepth 100000 in
theorem compareLoop_seven :
    compareLoop bufRamp bufOnes 7 = { sum := 1868, maxError := 254 } := by
  decide

theorem total_seven :
    (∑ i in Finset.range 7, ∑ c : Channel, |(bufRamp i).chan c - (bufOnes i).chan c|)
      = 1868 := by
  have hle := total_le bufRamp bufOnes 7
  have h0 := total_nonneg bufRamp bufOnes 7
  have hm : (compareLoop bufRamp bufOnes 7).sum = 1868 := by rw [compareLoop_seven]
  rw [compareLoop_sum, wrap32_of_range _ (by omega) (by omega)] at hm
  exact hm

theorem total_one :
    (∑ i in Finset.range 1, ∑ c : Channel, |(bufOnes i).chan c - (bufLow i).chan c|) = 4 := by
  rw [Finset.sum_range_one, sum_channels]
  rfl

/-- C3, counterexample. One pixel `(1, 1, 1, 1)` against `(0, 0, 0, 0)`: the sum of
the absolute differences is 4 and there are `4 * 1` samples, so the claim gives 1,
while `compareBuffers` reports `4.0f / 1 = 4`. Seven pixels of `bufRamp` against
`(1, 1, 1, 1)`: the sum is 1868 and the value reported is the binary32 number
`8744375 / 32768`, which is neither `1868 / 28` nor the exact quotient `1868 / 7`.
`2105377` pixels `(255, ..)` against `(0, ..)`: the accumulator has wrapped and the
value reported is negative. -/
theorem compareBuffers_average_counterexample :
    (∃ res, compareBuffers 1 bufOnes bufLow = some res
      ∧ res.averageError = F32.finite 4
      ∧ ((∑ i in Finset.range 1,
            ∑ c : Channel, |(bufOnes i).chan c - (bufLow i).chan c| : Int) : ℚ)
          / (4 * ((1 : Int) : ℚ)) = 1
      ∧ res.averageError
          ≠ F32.finite (((∑ i in Finset.range 1,
                ∑ c : Channel, |(bufOnes i).chan c - (bufLow i).chan c| : Int) : ℚ)
              / (4 * ((1 : Int) : ℚ))))
    ∧ (∃ res, compareBuffers 7 bufRamp bufOnes = some res
      ∧ res.averageError = F32.finite (8744375 / 32768)
      ∧ ((∑ i in Finset.range 7,
            ∑ c : Channel, |(bufRamp i).chan c - (bufOnes i).chan c| : Int) : ℚ) = 1868
      ∧ res.averageError
          ≠ F32.finite (((∑ i in Finset.range 7,
                ∑ c : Channel, |(bufRamp i).chan c - (bufOnes i).chan c| : Int) : ℚ)
              / (4 * ((7 : Int) : ℚ)))
      ∧ res.averageError
          ≠ F32.finite (((∑ i in Finset.range 7,
                ∑ c : Channel, |(bufRamp i).chan c - (bufOnes i).chan c| : Int) : ℚ)
              / ((7 : Int) : ℚ)))
    ∧ (∃ res, compareBuffers 2105377 bufHigh bufLow = some res
      ∧ res.averageError = F32.finite (-8355833 / 8192)) := by
  have r1 : roundF32 (1 : ℚ) = F32.finite 1 := by
    simpa using roundF32_nat_small 1 (by decide) (by decide)
  have r4 : roundF32 (4 : ℚ) = F32.finite 4 := by
    simpa using roundF32_nat_small 4 (by decide) (by decide)
  have r7 : roundF32 (7 : ℚ) = F32.finite 7 := by
    simpa using roundF32_nat_small 7 (by decide) (by decide)
  have r1868 : roundF32 (1868 : ℚ) = F32.finite 1868 := by
    simpa using roundF32_nat_small 1868 (by decide) (by decide)
  have rn : roundF32 (2105377 : ℚ) = F32.finite 2105377 := by
    simpa using roundF32_nat_small 2105377 (by decide) (by decide)
  have rq7 : roundF32 (1868 / 7) = F32.finite (8744375 / 32768) := by
    rw [roundF32_eval (1868 / 7) 8 8744375 (by norm_num) (by norm_num [abs_of_pos])
      (by norm_num [abs_of_pos]) (by norm_num) (by rw [abs_lt]; norm_num)
      (by norm_num [abs_of_pos])]
    norm_num
  have rs : roundF32 (-2147482756) = F32.finite (-2147482752) := by
    rw [roundF32_eval (-2147482756) 30 (-16777209) (by norm_num) (by norm_num [abs_of_pos])
      (by norm_num [abs_of_pos]) (by norm_num) (by rw [abs_lt]; norm_num)
      (by norm_num [abs_of_pos])]
    norm_num
  have rqn : roundF32 (-2147482752 / 2105377) = F32.finite (-8355833 / 8192) := by
    rw [roundF32_eval (-2147482752 / 2105377) 9 (-16711666) (by norm_num)
      (by norm_num [abs_of_pos]) (by norm_num [abs_of_pos]) (by norm_num)
      (by rw [abs_lt]; norm_num) (by norm_num [abs_of_pos])]
    norm_num
  have a1 : compareBuffers 1 bufOnes bufLow
      = some { averageError := F32.finite 4, maxError := 1 } := by
    rw [compareBuffers_eq_some 1 (by decide)]
    have hs : (compareLoop bufOnes bufLow (1 : Int).toNat).sum = 4 := by decide
    have hm : (compareLoop bufOnes bufLow (1 : Int).toNat).maxError = 1 := by decide
    rw [hs, hm]
    norm_num
    rw [r4, r1, F32_div_finite 4 1 (by norm_num)]
    norm_num
    exact r4
  have a7 : compareBuffers 7 bufRamp bufOnes
      = some { averageError := F32.finite (8744375 / 32768), maxError := 254 } := by
    rw [compareBuffers_eq_some 7 (by decide)]
    have hn : (7 : Int).toNat = 7 := by decide
    rw [hn, compareLoop_seven]
    norm_num
    rw [r1868, r7, F32_div_finite 1868 7 (by norm_num)]
    exact rq7
  have an : compareBuffers 2105377 bufHigh bufLow
      = some { averageError := F32.finite (-8355833 / 8192), maxError := 255 } := by
    rw [compareBuffers_eq_some 2105377 (by decide)]
    have hn : (2105377 : Int).toNat = 2105377 := by decide
    have hs : (compareLoop bufHigh bufLow 2105377).sum = -2147482756 := by
      rw [compareLoop_sum, total_const]
      norm_num [wrap32]
    rw [hn, hs, compareLoop_apart_maxError 2105377 (by decide)]
    norm_num
    rw [rs, rn, F32_div_finite _ _ (by norm_num), rqn]
    norm_num
  refine ⟨⟨_, a1, rfl, ?_, ?_⟩, ⟨_, a7, rfl, ?_, ?_, ?_⟩, ⟨_, an, rfl⟩⟩
  · rw [total_one]; norm_num
  · rw [total_one]; norm_num
  · rw [total_seven]; norm_num
  · rw [total_seven]; norm_num
  · rw [total_seven]; norm_num

end CudaQtStarter
